import Mathlib

/-!
Verification of the report-generation pipeline of the Basketball Analytics
Application.

The repository splits into a React frontend (plain JavaScript sources) and a
FastAPI scouting microservice.  The microservice's Python sources are present
in the repository only as CPython 3.12 byte-code (`.pyc`) files whose
non-ASCII bytes were destroyed by a UTF-8 round-trip, so the byte-code itself
cannot be executed or disassembled.  The marshal stream still contains, intact
and in order, every docstring, every ASCII string constant, the shape and
arity of every constant tuple, and every name table entry of every function;
the definitions below that embed service code are reconstructed from that
recovered data, and each doc comment records what was recovered.  Where a part
of the service is absent even from the byte-code (the SQLAlchemy model file
`app/models/report.py`, `app/services/pdf_generator_service.py`), the
definition is modelled from the specification and says so.

Frontend definitions are direct translations of the JavaScript sources:
`src/frontend/src/controllers/scoutingController.js`, the Scouting Report
page (`handleCreateReport`), the report details page, and `ReportCard.jsx`.
-/

/-! ## JavaScript string and number helpers -/

/-- JavaScript `a || b` for a possibly-absent string field: `undefined`,
`null` and the empty string are falsy, so the default is used for them. -/
def jsOrElse : Option String → String → String
  | some s, d => if s = "" then d else s
  | none, d => d

/-- Numeric value of a list of decimal digit characters. -/
def digitsVal (l : List Char) : Nat :=
  l.foldl (fun acc c => acc * 10 + (c.toNat - 48)) 0

/-- JavaScript `parseInt(s)` restricted to base 10: an optional sign followed
by the longest leading run of decimal digits; `none` stands for `NaN`. -/
def jsParseInt (s : String) : Option Int :=
  match s.data with
  | '-' :: rest =>
      let ds := rest.takeWhile Char.isDigit
      if ds = [] then none else some (-(digitsVal ds : Int))
  | '+' :: rest =>
      let ds := rest.takeWhile Char.isDigit
      if ds = [] then none else some (digitsVal ds : Int)
  | l =>
      let ds := l.takeWhile Char.isDigit
      if ds = [] then none else some (digitsVal ds : Int)

namespace ScoutingController

/-! Embedding of `src/frontend/src/controllers/scoutingController.js`.

Each controller wraps one `fetchWithAuth` call in `try/catch`, parses the
response body with `response.json()`, throws on a non-OK response, and then
dispatches to exactly one of the two supplied callbacks.  The environment is
abstracted as the outcome of the fetch: the promise may reject (network
failure), or resolve with a response whose body either fails to parse as JSON
or parses to an object with optional `status`, `data` and `message` fields.
The payload type of `data` is a type parameter `α`. -/

/-- Parsed JSON body of an API response: the three fields the controllers
inspect.  A `none` field is an absent (or `null`/`undefined`) field. -/
structure ApiBody (α : Type) where
  statusField : Option String
  dataField : Option α
  messageField : Option String

/-- Outcome of `await response.json()`. -/
inductive BodyParse (α : Type) where
  | malformed (msg : String)
  | parsed (body : ApiBody α)

/-- Outcome of `await fetchWithAuth(url, options)`: `fetchWithAuth` simply
forwards to `fetch` (src/frontend/src/utils/fetchInterceptor.js), so the
promise either rejects or resolves with a response carrying `ok`. -/
inductive FetchOutcome (α : Type) where
  | netFailure (msg : String)
  | resolved (respOk : Bool) (bp : BodyParse α)

/-- A call to one of the two supplied callbacks. -/
inductive CallbackCall (α : Type) where
  | onSuccess (d : Option α)
  | onError (msg : String)

/-- Body of the `try` block of `getReports`: `.error` is a thrown exception,
`.ok` is the list of callback invocations the block performs. -/
def getReportsTry (α : Type) (o : FetchOutcome α) :
    Except String (List (CallbackCall α)) :=
  match o with
  | .netFailure m => .error m
  | .resolved respOk bp =>
    match bp with
    | .malformed m => .error m
    | .parsed body =>
      if !respOk then
        .error (jsOrElse body.messageField "Failed to fetch reports")
      else if body.statusField == some "success" && body.dataField.isSome then
        .ok [.onSuccess body.dataField]
      else
        .ok [.onError (jsOrElse body.messageField "Failed to fetch reports")]

/-- `getReports(onSuccess, onError)`: the `catch` handler turns any thrown
error into `onError(error.message)`. -/
def getReports (α : Type) (o : FetchOutcome α) : List (CallbackCall α) :=
  match getReportsTry α o with
  | .ok calls => calls
  | .error m => [.onError m]

/-- Body of the `try` block of `getReportById`. -/
def getReportByIdTry (α : Type) (o : FetchOutcome α) :
    Except String (List (CallbackCall α)) :=
  match o with
  | .netFailure m => .error m
  | .resolved respOk bp =>
    match bp with
    | .malformed m => .error m
    | .parsed body =>
      if !respOk then
        .error (jsOrElse body.messageField "Failed to fetch report")
      else if body.statusField == some "success" && body.dataField.isSome then
        .ok [.onSuccess body.dataField]
      else
        .ok [.onError (jsOrElse body.messageField "Failed to fetch report")]

/-- `getReportById(reportId, onSuccess, onError)`. -/
def getReportById (α : Type) (o : FetchOutcome α) : List (CallbackCall α) :=
  match getReportByIdTry α o with
  | .ok calls => calls
  | .error m => [.onError m]

/-- Body of the `try` block of `createReport`; unlike the two getters it does
not test `data.data`, only `data.status === 'success'`. -/
def createReportTry (α : Type) (o : FetchOutcome α) :
    Except String (List (CallbackCall α)) :=
  match o with
  | .netFailure m => .error m
  | .resolved respOk bp =>
    match bp with
    | .malformed m => .error m
    | .parsed body =>
      if !respOk then
        .error (jsOrElse body.messageField "Failed to create report")
      else if body.statusField == some "success" then
        .ok [.onSuccess body.dataField]
      else
        .ok [.onError (jsOrElse body.messageField "Failed to create report")]

/-- `createReport(reportData, onSuccess, onError)`. -/
def createReport (α : Type) (o : FetchOutcome α) : List (CallbackCall α) :=
  match createReportTry α o with
  | .ok calls => calls
  | .error m => [.onError m]

/-- Body of the `try` block of `deleteReport`; on success the callback is
invoked with no argument, modelled as `onSuccess none`. -/
def deleteReportTry (α : Type) (o : FetchOutcome α) :
    Except String (List (CallbackCall α)) :=
  match o with
  | .netFailure m => .error m
  | .resolved respOk bp =>
    match bp with
    | .malformed m => .error m
    | .parsed body =>
      if !respOk then
        .error (jsOrElse body.messageField "Failed to delete report")
      else if body.statusField == some "success" then
        .ok [.onSuccess none]
      else
        .ok [.onError (jsOrElse body.messageField "Failed to delete report")]

/-- `deleteReport(reportId, onSuccess, onError)`. -/
def deleteReport (α : Type) (o : FetchOutcome α) : List (CallbackCall α) :=
  match deleteReportTry α o with
  | .ok calls => calls
  | .error m => [.onError m]

/-- An outcome on which every controller must report failure: the fetch
rejected, the response was non-OK, the body was not JSON, or the body's
`status` field was not the string `success`. -/
def failureOutcome (α : Type) : FetchOutcome α → Bool
  | .netFailure _ => true
  | .resolved respOk bp =>
    match bp with
    | .malformed _ => true
    | .parsed body => !respOk || !(body.statusField == some "success")

end ScoutingController

namespace ScoutingReportPage

/-! Embedding of `handleCreateReport` from the Scouting Report page
(`src/unnamed/part_010`): the guards, the construction of the request body
sent through `createReport`, and the toast messages shown when a guard
fires. -/

/-- The fields of a video entry that `handleCreateReport` reads. -/
structure Video where
  id : Int
  title : String
deriving DecidableEq, Repr

/-- The JSON request body built by `handleCreateReport`.  `video_id` is
`parseInt(selectedVideo)`, with `none` standing for `NaN`. -/
structure ReportData where
  title : String
  description : String
  video_id : Option Int
  video_title : String
  team_name : String
  opponent_name : String
  user_id : Nat
deriving DecidableEq, Repr

/-- Result of one invocation of `handleCreateReport`: the request body passed
to `createReport` (if any) and the error toasts shown. -/
structure CreateAttempt where
  request : Option ReportData
  errorToasts : List String
deriving DecidableEq, Repr

/-- `handleCreateReport` from the Scouting Report page.  `!selectedVideo` and
`!reportTitle` test JavaScript string falsiness, i.e. emptiness; the
description is the template literal built from
`teamName || 'opponent team'`; `videoObj` is
`videos.find(v => v.id === parseInt(selectedVideo))` and a missing video
yields an empty `video_title`. -/
def handleCreateReport (videos : List Video) (userId : Nat)
    (selectedVideo reportTitle teamName opponentName : String) : CreateAttempt :=
  if selectedVideo = "" then
    { request := none, errorToasts := ["Please select a video"] }
  else if reportTitle = "" then
    { request := none, errorToasts := ["Please enter a report title"] }
  else
    let videoObj := videos.find? (fun v => some v.id == jsParseInt selectedVideo)
    { request := some
        { title := reportTitle
          description := "Scouting report for " ++
            (if teamName = "" then "opponent team" else teamName)
          video_id := jsParseInt selectedVideo
          video_title := match videoObj with
            | some v => v.title
            | none => ""
          team_name := teamName
          opponent_name := opponentName
          user_id := userId }
      errorToasts := [] }

end ScoutingReportPage

namespace ReportCard

/-! Embedding of the pieces of
`src/frontend/src/views/components/scouting/ReportCard.jsx` that the claims
cite. -/

/-- `getStatusColor` (also duplicated verbatim in the report details page,
`src/unnamed/part_015`). -/
def getStatusColor (status : String) : String :=
  if status = "completed" then "success"
  else if status = "processing" then "warning"
  else if status = "queued" then "info"
  else if status = "failed" then "error"
  else "default"

/-- The `disabled` condition of both the Download button and the Download
PDF menu item: `report.status !== 'completed' || !report.download_url`. -/
def downloadDisabled (status : String) (download_url : Option String) : Bool :=
  !(status == "completed") || download_url.isNone

/-- `handleDownload`: opens the download URL when `report.download_url` is
truthy, otherwise shows the "Download not available yet" toast and opens
nothing. -/
def handleDownload (base : String) (download_url : Option String) : Option String :=
  match download_url with
  | some u => some (base ++ u)
  | none => none

end ReportCard

namespace ReportService

/-! Embedding of the scouting microservice's job store and pipeline
orchestrator, reconstructed from the byte-code of
`app/services/report_service.py`, `app/api/routes/reports.py`,
`app/schemas/report.py` and `app/services/video_analysis_service.py`
(the plain `.py` files are absent from the repository).

For `ReportService.generate_report` the recovered constant pool is, in
order: the docstring, "Starting report generation for report ID: ",
"Report not found: ", None, "processing", "Fetching video data for video
ID: ", "Analyzing video: ", "Generating PDF for report: ", a back-reference
to the interned string "completed", "Report generation completed for report
ID: ", "Error generating report: ", True, the keyword tuple (exc_info,),
and "failed" — fourteen constants exactly, matching the recovered tuple
arity, with no occurrence of (or reference to) the string "queued".  The
recovered name table, in first-use order, is: logger, info, query, Report,
filter, id, first, error, status, commit, video_id, video_analysis_service,
get_video_data, analyze_video, pdf_generator_service, generate_pdf,
file_path, analysis_results, datetime, now, Exception, str. -/

/-- A row of the `reports` table.  The column set is recovered from the
result-dictionary key tuples of `get_reports`/`get_report` and the keyword
tuple of `create_report`; `analysis_results` is kept opaque as a `String`
(the pipeline treats the analysis document as a black box).  Timestamps are
abstract `Nat` instants.  That `file_path`, `analysis_results` and
`completed_at` are nullable and default to null is modelled from the spec:
`app/models/report.py` is missing from the repository (its `ReportUpdate`
schema declares exactly these fields optional). -/
structure Report where
  id : Nat
  title : String
  description : Option String
  video_id : Int
  video_title : Option String
  team_name : Option String
  opponent_name : Option String
  game_date : Option String
  user_id : Option Nat
  status : String
  file_path : Option String
  analysis_results : Option String
  completed_at : Option Nat
  created_at : Nat
  updated_at : Nat
deriving DecidableEq, Repr

/-- Creation payload (`ReportCreate` in `app/schemas/report.py`). -/
structure ReportCreate where
  title : String
  description : Option String
  video_id : Int
  video_title : Option String
  team_name : Option String
  opponent_name : Option String
  game_date : Option String
  user_id : Option Nat
deriving DecidableEq, Repr

/-- The database: the `reports` table plus the auto-increment counter.
Row order is insertion order. -/
structure DB where
  reports : List Report
  nextId : Nat
deriving DecidableEq, Repr

/-- `db.query(Report).filter(Report.id == report_id).first()`. -/
def get_report (db : DB) (report_id : Nat) : Option Report :=
  db.reports.find? (fun r => r.id == report_id)

/-- ORM row update: apply `f` to the row(s) with the given id. -/
def DB.update (db : DB) (report_id : Nat) (f : Report → Report) : DB :=
  { db with reports := db.reports.map (fun r => if r.id == report_id then f r else r) }

/-- `ReportService.create_report`: constructs a `Report` row from the
payload with `status="queued"` (the recovered keyword tuple is `(title,
description, video_id, video_title, team_name, opponent_name, game_date,
user_id, status)` with the constant "queued"), adds it, commits, and
returns the refreshed row.  `now` stands for the database-assigned
creation instant. -/
def create_report (db : DB) (rin : ReportCreate) (now : Nat) : Report × DB :=
  let db_report : Report :=
    { id := db.nextId
      title := rin.title
      description := rin.description
      video_id := rin.video_id
      video_title := rin.video_title
      team_name := rin.team_name
      opponent_name := rin.opponent_name
      game_date := rin.game_date
      user_id := rin.user_id
      status := "queued"
      file_path := none
      analysis_results := none
      completed_at := none
      created_at := now
      updated_at := now }
  (db_report, { reports := db.reports ++ [db_report], nextId := db.nextId + 1 })

/-- The descending-creation-time comparison used by
`query.order_by(Report.created_at.desc())`. -/
def createdDesc (a b : Report) : Prop := b.created_at ≤ a.created_at

instance : DecidableRel createdDesc := fun a b => Nat.decLe b.created_at a.created_at

instance : IsTotal Report createdDesc :=
  ⟨fun a b => Or.symm (Nat.le_total a.created_at b.created_at)⟩

instance : IsTrans Report createdDesc :=
  ⟨fun _ _ _ h1 h2 => Nat.le_trans h2 h1⟩

/-- The row list produced by
`query[.filter(Report.user_id == user_id)].order_by(Report.created_at.desc())
.offset(skip).limit(limit).all()` in `ReportService.get_reports`.  SQL
leaves the relative order of equal `created_at` values unspecified; the
model fixes it with a stable insertion sort. -/
def get_reports_rows (db : DB) (user_id : Option Nat) (skip limit : Nat) :
    List Report :=
  let q : List Report := match user_id with
    | some uid => db.reports.filter (fun r => r.user_id == some uid)
    | none => db.reports
  ((q.insertionSort createdDesc).drop skip).take limit

/-- One entry of the list returned by `ReportService.get_reports`: the
recovered result-dictionary keys are `(id, title, description, video_id,
video_title, team_name, opponent_name, game_date, status, user_id,
created_at, updated_at, completed_at, download_url)` — no
`analysis_results` — and `download_url` is
`"/api/reports/" + id + "/download"` exactly when `status == "completed"`
(recovered constants "completed", "/api/reports/", "/download"). -/
structure ReportOut where
  id : Nat
  title : String
  description : Option String
  video_id : Int
  video_title : Option String
  team_name : Option String
  opponent_name : Option String
  game_date : Option String
  status : String
  user_id : Option Nat
  created_at : Nat
  updated_at : Nat
  completed_at : Option Nat
  download_url : Option String
  analysis_results : Option String
deriving DecidableEq, Repr

/-- The serialization shared by `get_reports` (list entries, which omit the
analysis) and `get_report` (detail, which includes `analysis_results`). -/
def serializeReport (includeAnalysis : Bool) (r : Report) : ReportOut :=
  { id := r.id
    title := r.title
    description := r.description
    video_id := r.video_id
    video_title := r.video_title
    team_name := r.team_name
    opponent_name := r.opponent_name
    game_date := r.game_date
    status := r.status
    user_id := r.user_id
    created_at := r.created_at
    updated_at := r.updated_at
    completed_at := r.completed_at
    download_url :=
      if r.status == "completed" then
        some ("/api/reports/" ++ toString r.id ++ "/download")
      else none
    analysis_results := if includeAnalysis then r.analysis_results else none }

/-- `ReportService.get_reports`. -/
def get_reports (db : DB) (user_id : Option Nat) (skip limit : Nat) :
    List ReportOut :=
  (get_reports_rows db user_id skip limit).map (serializeReport false)

/-- `ReportService.get_report`: the detail dictionary for one report, with
`analysis_results` included and `download_url` present exactly when the
status is "completed" (same recovered key tuple plus `analysis_results`),
or `None` when the id is unknown. -/
def get_report_detail (db : DB) (report_id : Nat) : Option ReportOut :=
  (get_report db report_id).map (serializeReport true)

/-- `ReportService.delete_report`: recovered name table `(query, Report,
filter, id, first, delete, commit)` — it deletes the database row and
commits, and touches nothing else; in particular no storage or file
operation occurs.  Returns `False` when the id is unknown. -/
def delete_report (db : DB) (report_id : Nat) : Bool × DB :=
  match get_report db report_id with
  | none => (false, db)
  | some _ =>
      (true, { db with reports := db.reports.filter (fun r => !(r.id == report_id)) })

/-- `ReportService.get_report_file_path`: the stored `file_path` of the
report, or `None`. -/
def get_report_file_path (db : DB) (report_id : Nat) : Option String :=
  match get_report db report_id with
  | none => none
  | some r => r.file_path

/-- The three pluggable pipeline steps and the run's clock instant.
`get_video_data` and `analyze_video` live in
`app/services/video_analysis_service.py`; `generate_pdf` is the artifact
renderer (`app/services/pdf_generator_service.py`, missing from the
repository, modelled from the spec contract `Render(job, analysisDocument)
-> artifactLocation`).  Each step may raise, which the orchestrator
catches; metadata and analysis documents are opaque strings. -/
structure PipelineEnv where
  get_video_data : Int → Except String String
  analyze_video : String → Except String String
  generate_pdf : Report → String → Except String String
  now : Nat

/-- First phase of `ReportService.generate_report`: load the row (logging
and returning when it does not exist) and otherwise set
`status = "processing"` and commit immediately.  The recovered constant
pool shows no guard on the current status: the constant "queued" neither
occurs in nor is referenced by `generate_report`. -/
def run_begin (db : DB) (report_id : Nat) (now : Nat) : DB :=
  match get_report db report_id with
  | none => db
  | some _ => db.update report_id (fun r => { r with status := "processing", updated_at := now })

/-- Terminal update of the failure path: recovered constants "Error
generating report: ", True (for `exc_info`) and "failed".  That the
failure path also stamps `completed_at` is modelled from the spec
(`failed` implies `completed_at` non-null); the byte-code shows `now` and
`completed_at` in the name table but cannot show on which paths they are
used. -/
def failUpdate (now : Nat) (r : Report) : Report :=
  { r with status := "failed", completed_at := some now, updated_at := now }

/-- Successful terminal update, in recovered first-use order: `file_path`,
`analysis_results`, `status = "completed"`, `completed_at = now`, then one
commit. -/
def completeUpdate (pdf_path analysis : String) (now : Nat) (r : Report) : Report :=
  { r with file_path := some pdf_path
           analysis_results := some analysis
           status := "completed"
           completed_at := some now
           updated_at := now }

/-- Second phase of `ReportService.generate_report`: run the three steps in
order inside the `try` block; any raise lands in the single `except` that
marks the job failed.  The second component accumulates the artifact files
written by the renderer.  The recovered name table fixes the order
`get_video_data`, `analyze_video`, `generate_pdf`, and only then
`file_path` and `analysis_results`: nothing is persisted before the render
step succeeds. -/
def run_finish (env : PipelineEnv) (db : DB) (files : List String)
    (report_id : Nat) : DB × List String :=
  match get_report db report_id with
  | none => (db, files)
  | some report =>
    match env.get_video_data report.video_id with
    | .error _ => (db.update report_id (failUpdate env.now), files)
    | .ok video_data =>
      match env.analyze_video video_data with
      | .error _ => (db.update report_id (failUpdate env.now), files)
      | .ok analysis =>
        match env.generate_pdf report analysis with
        | .error _ => (db.update report_id (failUpdate env.now), files)
        | .ok pdf_path =>
            (db.update report_id (completeUpdate pdf_path analysis env.now),
             files ++ [pdf_path])

/-- `ReportService.generate_report` (the spec's `RunJob`): phase one then
phase two.  When the id is unknown both phases are identities, matching the
single early return of the source. -/
def generate_report (env : PipelineEnv) (db : DB) (files : List String)
    (report_id : Nat) : DB × List String :=
  run_finish env (run_begin db report_id env.now) files report_id

end ReportService

namespace ReportsRoutes

/-! Embedding of `app/api/routes/reports.py`, reconstructed from its
byte-code.  The create endpoint's recovered constants and names are:
"Creating report for video ", the data key tuple `(report_id,)`, "Report
creation initiated", and the names `info`, `video_id`, `create_report`,
`add_task`, `generate_report`, `id`, `success`, `HTTP_202_ACCEPTED`: it
persists the job, registers exactly one FastAPI background task for the new
id, and returns 202 before that task runs. -/

open ReportService

/-- The payload of `ResponseModel.success` (from `app/api/responses.py`):
`status = "success"`, a `data` dictionary (here only the `report_id` the
create endpoint puts in it), a message and the HTTP status code. -/
structure CreateResponse where
  status : String
  data_report_id : Nat
  message : String
  status_code : Nat
deriving DecidableEq, Repr

/-- `POST /api/reports`: `create_report` then
`background_tasks.add_task(report_service.generate_report, db, report.id)`
then the 202 response.  The third component is the list of background task
ids registered; FastAPI runs them only after the response is sent. -/
def create_report_endpoint (db : DB) (rin : ReportCreate) (now : Nat) :
    CreateResponse × DB × List Nat :=
  let (report, db1) := ReportService.create_report db rin now
  ({ status := "success"
     data_report_id := report.id
     message := "Report creation initiated"
     status_code := 202 },
   db1, [report.id])

/-- The create request followed by the execution of the background tasks it
registered: the response is already fixed when the tasks run. -/
def create_then_background (env : PipelineEnv) (db : DB) (files : List String)
    (rin : ReportCreate) (now : Nat) :
    CreateResponse × DB × List String :=
  let (resp, db1, tasks) := create_report_endpoint db rin now
  let final := tasks.foldl (fun s i => generate_report env s.1 s.2 i) (db1, files)
  (resp, final.1, final.2)

/-- `GET /api/reports/{report_id}`: `None` models the 404 "Report not
found" branch. -/
def get_report_endpoint (db : DB) (report_id : Nat) : Option ReportOut :=
  get_report_detail db report_id

/-- `GET /api/reports/{report_id}/download`: the `FileResponse` path, or
`None` for the 404 "Report file not found" branch. -/
def download_report_endpoint (db : DB) (report_id : Nat) : Option String :=
  get_report_file_path db report_id

/-- `DELETE /api/reports/{report_id}`: `false` models the 404 branch. -/
def delete_report_endpoint (db : DB) (report_id : Nat) : Bool × DB :=
  delete_report db report_id

end ReportsRoutes

namespace PipelineSystem

/-! The per-job lifecycle as the system actually drives it.

A system state carries the database, the set of artifact files in blob
storage, and the dispatch bookkeeping: `pending` are job ids whose single
background task is registered but has not started, `running` are ids whose
task has passed phase one (the `processing` commit).  The step relation has
one constructor per operation the service exposes that mutates state:
creating a job (which registers its one background task), the two phases of
`generate_report`, and deletion.  `GET` and the listing are pure and need
no steps.  `update_report` exists in `ReportService` but no route invokes
it, so it is not a system operation. -/

open ReportService

/-- A state of the running system. -/
structure Sys where
  db : DB
  files : List String
  pending : List Nat
  running : List Nat
deriving DecidableEq, Repr

/-- The empty initial state (auto-increment counters start at 1). -/
def initSys : Sys := { db := { reports := [], nextId := 1 }, files := [], pending := [], running := [] }

/-- One observable state change of the system. -/
inductive Step : Sys → Sys → Prop where
  | create (s : Sys) (rin : ReportCreate) (now : Nat) :
      Step s { db := (create_report s.db rin now).2
               files := s.files
               pending := s.pending ++ [s.db.nextId]
               running := s.running }
  | runBegin (s : Sys) (id now : Nat) (h : id ∈ s.pending) :
      Step s { db := run_begin s.db id now
               files := s.files
               pending := s.pending.erase id
               running := if (get_report s.db id).isSome then id :: s.running else s.running }
  | runFinish (s : Sys) (env : PipelineEnv) (id : Nat) (h : id ∈ s.running) :
      Step s { db := (run_finish env s.db s.files id).1
               files := (run_finish env s.db s.files id).2
               pending := s.pending
               running := s.running.erase id }
  | deleteJob (s : Sys) (id : Nat) :
      Step s { db := (delete_report s.db id).2
               files := s.files
               pending := s.pending
               running := s.running }

/-- States the running system can reach. -/
def Reachable (s : Sys) : Prop := Relation.ReflTransGen Step initSys s

/-- The four job statuses. -/
def statusValues : List String := ["queued", "processing", "completed", "failed"]

/-- Per-row field invariant: artifact location and analysis document are
set exactly on completion, and the completion timestamp exactly on the two
terminal statuses. -/
structure FieldInv (r : Report) : Prop where
  completed_some : r.status = "completed" →
    r.file_path.isSome ∧ r.analysis_results.isSome
  not_completed_none : r.status ≠ "completed" →
    r.file_path = none ∧ r.analysis_results = none
  completed_at_iff : r.completed_at.isSome ↔
    (r.status = "completed" ∨ r.status = "failed")

/-- The inductive system invariant. -/
structure Inv (s : Sys) : Prop where
  statuses : ∀ r ∈ s.db.reports, r.status ∈ statusValues
  fields : ∀ r ∈ s.db.reports, FieldInv r
  idBound : ∀ r ∈ s.db.reports, r.id < s.db.nextId
  idsNodup : (s.db.reports.map Report.id).Nodup
  pendingQueued : ∀ id ∈ s.pending, ∀ r, get_report s.db id = some r → r.status = "queued"
  runningProc : ∀ id ∈ s.running, ∀ r, get_report s.db id = some r → r.status = "processing"
  prNodup : (s.pending ++ s.running).Nodup
  pendingBound : ∀ id ∈ s.pending, id < s.db.nextId
  runningBound : ∀ id ∈ s.running, id < s.db.nextId

/-- The edges of the specified state machine, reflexively closed: what one
observable step may do to one job's status. -/
def statusEdge (old new : String) : Prop :=
  new = old ∨
  (old = "queued" ∧ new = "processing") ∨
  (old = "processing" ∧ (new = "completed" ∨ new = "failed"))

end PipelineSystem

/-! ## Definitions supporting the individual claims: the processing-phase row
transform, a step-failure predicate, the system-level delete, and concrete
fixtures used by witnesses, counterexamples and scenarios. -/

/-- The row transform of phase one of `generate_report` (the `processing`
commit). -/
def ReportService.processingOf (now : Nat) (r : ReportService.Report) :
    ReportService.Report :=
  { r with status := "processing", updated_at := now }

/-- Whether the three-step pipeline raises on the given (processing-phase)
row: metadata fetch, analysis, or render fails. -/
def ReportService.pipelineFails (env : ReportService.PipelineEnv)
    (r : ReportService.Report) : Bool :=
  match env.get_video_data r.video_id with
  | .error _ => true
  | .ok vd =>
    match env.analyze_video vd with
    | .error _ => true
    | .ok a =>
      match env.generate_pdf r a with
      | .error _ => true
      | .ok _ => false

/-- The `DELETE /api/reports/{report_id}` endpoint acting on a full system
state: it calls `ReportService.delete_report` (a database-row delete and
commit) and performs no storage operation, so the artifact file store is
untouched. -/
def PipelineSystem.deleteJobFull (s : PipelineSystem.Sys) (id : Nat) :
    Bool × PipelineSystem.Sys :=
  let (ok2, db2) := ReportService.delete_report s.db id
  (ok2, { s with db := db2 })

/-- A creation payload used in concrete scenarios. -/
def rin0 : ReportService.ReportCreate :=
  { title := "Scouting Report - Team X"
    description := some "Analysis of Team X"
    video_id := 7
    video_title := some "Game 1"
    team_name := some "Team X"
    opponent_name := some "Team Y"
    game_date := none
    user_id := some 1 }

/-- The system state after one job creation from the initial state; its
shape matches the create step of the step relation. -/
def step1Sys : PipelineSystem.Sys :=
  { db := (ReportService.create_report PipelineSystem.initSys.db rin0 5).2
    files := PipelineSystem.initSys.files
    pending := PipelineSystem.initSys.pending ++ [PipelineSystem.initSys.db.nextId]
    running := PipelineSystem.initSys.running }

/-- A queued report fixture. -/
def reportQ : ReportService.Report :=
  { id := 1, title := "Report A", description := none, video_id := 7
    video_title := none, team_name := none, opponent_name := none
    game_date := none, user_id := some 1, status := "queued"
    file_path := none, analysis_results := none, completed_at := none
    created_at := 10, updated_at := 10 }

/-- A database holding one queued report. -/
def dbQ : ReportService.DB := { reports := [reportQ], nextId := 2 }

/-- A completed report fixture with its artifact and analysis set. -/
def completedR : ReportService.Report :=
  { id := 1, title := "Report A", description := none, video_id := 7
    video_title := none, team_name := none, opponent_name := none
    game_date := none, user_id := some 1, status := "completed"
    file_path := some "/app/reports/scouting_report_1.pdf"
    analysis_results := some "analysis-doc"
    completed_at := some 100, created_at := 50, updated_at := 100 }

/-- A database holding one completed report. -/
def dbC : ReportService.DB := { reports := [completedR], nextId := 2 }

/-- A system state holding the completed report and its stored artifact. -/
def sysC : PipelineSystem.Sys :=
  { db := dbC
    files := ["/app/reports/scouting_report_1.pdf"]
    pending := []
    running := [] }

/-- A pipeline environment in which all three steps succeed. -/
def envOk : ReportService.PipelineEnv :=
  { get_video_data := fun _ => .ok "video-metadata"
    analyze_video := fun _ => .ok "analysis-doc"
    generate_pdf := fun r _ => .ok ("/app/reports/scouting_report_" ++ toString r.id ++ ".pdf")
    now := 200 }

/-- A pipeline environment in which metadata fetch and analysis succeed and
rendering raises. -/
def envFailRender : ReportService.PipelineEnv :=
  { get_video_data := fun _ => .ok "video-metadata"
    analyze_video := fun _ => .ok "analysis-doc"
    generate_pdf := fun _ _ => .error "RenderFailed"
    now := 99 }

/-- Scenario D fixtures: three reports of owner 1 with distinct creation
times, plus one report of another owner. -/
def exJob1 : ReportService.Report :=
  { reportQ with id := 1, created_at := 100, updated_at := 100 }

def exJob2 : ReportService.Report :=
  { reportQ with id := 2, created_at := 200, updated_at := 200 }

def exJob3 : ReportService.Report :=
  { reportQ with id := 3, created_at := 300, updated_at := 300 }

def exJobOther : ReportService.Report :=
  { reportQ with id := 4, user_id := some 2, created_at := 400, updated_at := 400 }

/-- The listing-scenario database. -/
def exampleDb : ReportService.DB :=
  { reports := [exJob1, exJob2, exJob3, exJobOther], nextId := 5 }

namespace PipelineSystem

/-! Helper lemmas about row lookup under update, append and filter. -/

open ReportService

lemma find?_map_idpres (g : Report → Report) (hg : ∀ r, (g r).id = r.id)
    (l : List Report) (j : Nat) :
    (l.map g).find? (fun r => r.id == j) = (l.find? (fun r => r.id == j)).map g := by
  induction l with
  | nil => rfl
  | cons a t ih =>
    simp only [List.map_cons, List.find?_cons, hg]
    by_cases h : (a.id == j) = true
    · simp [h]
    · simp [h, ih]

lemma get_report_update (db : DB) (i : Nat) (f : Report → Report)
    (hf : ∀ r, (f r).id = r.id) (j : Nat) :
    get_report (db.update i f) j =
      (get_report db j).map (fun r => if r.id == i then f r else r) := by
  unfold get_report DB.update
  exact find?_map_idpres _ (fun r => by by_cases h : (r.id == i) = true <;> simp [h, hf]) _ _

lemma get_report_update_self (db : DB) (i : Nat) (f : Report → Report)
    (hf : ∀ r, (f r).id = r.id) :
    get_report (db.update i f) i = (get_report db i).map f := by
  rw [get_report_update db i f hf i]
  cases hfind : get_report db i with
  | none => rfl
  | some r =>
      have hfind2 : db.reports.find? (fun x => x.id == i) = some r := hfind
      have hp := List.find?_some hfind2
      have hpi : r.id = i := by simpa [beq_iff_eq] using hp
      simp [hpi]

lemma get_report_update_other (db : DB) (i : Nat) (f : Report → Report)
    (hf : ∀ r, (f r).id = r.id) (j : Nat) (hij : j ≠ i) :
    get_report (db.update i f) j = get_report db j := by
  rw [get_report_update db i f hf j]
  cases hfind : get_report db j with
  | none => rfl
  | some r =>
      have hfind2 : db.reports.find? (fun x => x.id == j) = some r := hfind
      have hp := List.find?_some hfind2
      have hpj : r.id = j := by simpa [beq_iff_eq] using hp
      have hne : r.id ≠ i := by omega
      simp [hne]

lemma get_report_append (db : DB) (a : Report) (n j : Nat) :
    get_report { reports := db.reports ++ [a], nextId := n } j =
      (get_report db j).or (if a.id == j then some a else none) := by
  unfold get_report
  rw [List.find?_append]
  congr 1
  by_cases h : (a.id == j) = true <;> simp [List.find?, h]

lemma find?_eq_of_mem_nodup {l : List Report}
    (hnd : (l.map Report.id).Nodup) {r : Report} (hr : r ∈ l) :
    l.find? (fun x => x.id == r.id) = some r := by
  induction l with
  | nil => cases hr
  | cons a t ih =>
    rcases List.mem_cons.mp hr with h | h
    · subst h
      exact List.find?_cons_of_pos _ (by simp)
    · have hnd2 : (∀ x ∈ t, ¬ x.id = a.id) ∧ (t.map Report.id).Nodup := by
        simpa using hnd
      have hne : ¬ (a.id == r.id) = true := by
        simp only [beq_iff_eq]
        intro he
        exact hnd2.1 r h he.symm
      simp only [List.find?_cons, if_neg hne]
      split
      · next heq => exact absurd heq hne
      · exact ih hnd2.2 h

/-- In a table with no duplicate ids, a member row with the looked-up id is
the lookup result. -/
lemma get_report_of_mem (db : DB) (hnd : (db.reports.map Report.id).Nodup)
    {r : Report} (hr : r ∈ db.reports) : get_report db r.id = some r :=
  find?_eq_of_mem_nodup hnd hr

lemma get_report_mem {db : DB} {j : Nat} {r : Report}
    (h : get_report db j = some r) : r ∈ db.reports := by
  have h2 : db.reports.find? (fun x => x.id == j) = some r := h
  exact List.mem_of_find?_eq_some h2

lemma get_report_id {db : DB} {j : Nat} {r : Report}
    (h : get_report db j = some r) : r.id = j := by
  have h2 : db.reports.find? (fun x => x.id == j) = some r := h
  have := List.find?_some h2
  simpa [beq_iff_eq] using this

/-- The three row updaters of the pipeline all preserve the row id. -/
lemma proc_id (now : Nat) :
    ∀ r : Report, (({ r with status := "processing", updated_at := now } : Report)).id = r.id :=
  fun _ => rfl

lemma failUpdate_id (now : Nat) : ∀ r : Report, (failUpdate now r).id = r.id :=
  fun _ => rfl

lemma completeUpdate_id (p a : String) (now : Nat) :
    ∀ r : Report, (completeUpdate p a now r).id = r.id :=
  fun _ => rfl

lemma update_ids (db : DB) (i : Nat) (f : Report → Report)
    (hf : ∀ r, (f r).id = r.id) :
    (db.update i f).reports.map Report.id = db.reports.map Report.id := by
  simp only [DB.update, List.map_map]
  apply List.map_congr_left
  intro a _
  by_cases hb : (a.id == i) = true <;> simp [Function.comp, hb, hf]

lemma update_nextId (db : DB) (i : Nat) (f : Report → Report) :
    (db.update i f).nextId = db.nextId := rfl

lemma inv_pending_nodup {s : Sys} (hI : Inv s) : s.pending.Nodup :=
  (List.nodup_append.mp hI.prNodup).1

lemma inv_running_nodup {s : Sys} (hI : Inv s) : s.running.Nodup :=
  (List.nodup_append.mp hI.prNodup).2.1

lemma inv_pr_disjoint {s : Sys} (hI : Inv s) : s.pending.Disjoint s.running :=
  (List.nodup_append.mp hI.prNodup).2.2

lemma create_report_db (db : DB) (rin : ReportCreate) (now : Nat) :
    (create_report db rin now).2 =
      { reports := db.reports ++ [(create_report db rin now).1], nextId := db.nextId + 1 } := rfl

lemma create_report_fst_id (db : DB) (rin : ReportCreate) (now : Nat) :
    (create_report db rin now).1.id = db.nextId := rfl

lemma inv_init : Inv initSys := by
  constructor <;> simp [initSys]

lemma inv_create (s : Sys) (rin : ReportCreate) (now : Nat) (hI : Inv s) :
    Inv { db := (create_report s.db rin now).2
          files := s.files
          pending := s.pending ++ [s.db.nextId]
          running := s.running } := by
  have hge : ∀ j, j < s.db.nextId →
      get_report (create_report s.db rin now).2 j = get_report s.db j := by
    intro j hj
    rw [create_report_db, get_report_append]
    have hb : ((create_report s.db rin now).1.id == j) = false := by
      rw [create_report_fst_id]
      simp only [beq_eq_false_iff_ne]
      omega
    simp [hb]
  have hnone : get_report s.db s.db.nextId = none := by
    show s.db.reports.find? (fun r => r.id == s.db.nextId) = none
    apply List.find?_eq_none.mpr
    intro r hr
    have := hI.idBound r hr
    simp only [beq_iff_eq]
    omega
  have hgnew : get_report (create_report s.db rin now).2 s.db.nextId =
      some (create_report s.db rin now).1 := by
    rw [create_report_db, get_report_append, hnone]
    rw [create_report_fst_id]
    simp
  constructor
  case statuses =>
    intro r hr
    rw [create_report_db] at hr
    rcases List.mem_append.mp hr with h1 | h1
    · exact hI.statuses r h1
    · have : r = (create_report s.db rin now).1 := by simpa using h1
      subst this
      simp [create_report, statusValues]
  case fields =>
    intro r hr
    rw [create_report_db] at hr
    rcases List.mem_append.mp hr with h1 | h1
    · exact hI.fields r h1
    · have : r = (create_report s.db rin now).1 := by simpa using h1
      subst this
      refine ⟨?_, ?_, ?_⟩ <;> simp [create_report]
  case idBound =>
    intro r hr
    rw [create_report_db] at hr
    rw [create_report_db]
    rcases List.mem_append.mp hr with h1 | h1
    · have := hI.idBound r h1
      simp only
      omega
    · have : r = (create_report s.db rin now).1 := by simpa using h1
      subst this
      rw [create_report_fst_id]
      simp
  case idsNodup =>
    rw [create_report_db]
    simp only [List.map_append, List.map_cons, List.map_nil]
    rw [List.nodup_append]
    refine ⟨hI.idsNodup, by simp, ?_⟩
    intro a ha hmem
    have : a = (create_report s.db rin now).1.id := by simpa using hmem
    rw [create_report_fst_id] at this
    subst this
    obtain ⟨r, hr, hid⟩ := List.mem_map.mp ha
    have := hI.idBound r hr
    omega
  case pendingQueued =>
    intro j hj r hget
    rcases List.mem_append.mp hj with h1 | h1
    · rw [hge j (hI.pendingBound j h1)] at hget
      exact hI.pendingQueued j h1 r hget
    · have : j = s.db.nextId := by simpa using h1
      subst this
      rw [hgnew] at hget
      have : r = (create_report s.db rin now).1 := (Option.some.inj hget).symm
      subst this
      rfl
  case runningProc =>
    intro j hj r hget
    rw [hge j (hI.runningBound j hj)] at hget
    exact hI.runningProc j hj r hget
  case prNodup =>
    rw [List.append_assoc, List.singleton_append]
    rw [List.nodup_append]
    refine ⟨(inv_pending_nodup hI : s.pending.Nodup), ?_, ?_⟩
    · rw [List.nodup_cons]
      refine ⟨?_, (inv_running_nodup hI : s.running.Nodup)⟩
      intro hmem
      have := hI.runningBound _ hmem
      omega
    · intro a ha hmem
      rcases List.mem_cons.mp hmem with h1 | h1
      · subst h1
        have := hI.pendingBound _ ha
        omega
      · exact inv_pr_disjoint hI ha h1
  case pendingBound =>
    intro j hj
    rw [create_report_db]
    simp only
    rcases List.mem_append.mp hj with h1 | h1
    · have := hI.pendingBound j h1
      omega
    · have : j = s.db.nextId := by simpa using h1
      omega
  case runningBound =>
    intro j hj
    rw [create_report_db]
    simp only
    have := hI.runningBound j hj
    omega

lemma mem_update_cases {db : DB} {i : Nat} {f : Report → Report} {r : Report}
    (hr : r ∈ (db.update i f).reports) :
    (∃ r1 ∈ db.reports, (r1.id == i) = true ∧ r = f r1) ∨
      (r ∈ db.reports ∧ (r.id == i) = false) := by
  simp only [DB.update, List.mem_map] at hr
  obtain ⟨r1, h1, hr1⟩ := hr
  by_cases hb : (r1.id == i) = true
  · exact Or.inl ⟨r1, h1, hb, by rw [← hr1]; simp [hb]⟩
  · have he : r = r1 := by rw [← hr1]; simp [hb]
    subst he
    exact Or.inr ⟨h1, by simpa using hb⟩

lemma touched_eq {s : Sys} (hI : Inv s) {i : Nat} {r0 r1 : Report}
    (hg : get_report s.db i = some r0) (h1 : r1 ∈ s.db.reports)
    (hb : (r1.id == i) = true) : r1 = r0 := by
  have hid : r1.id = i := by simpa [beq_iff_eq] using hb
  have h2 := get_report_of_mem s.db hI.idsNodup h1
  rw [hid] at h2
  have h3 : some r0 = some r1 := hg.symm.trans h2
  exact (Option.some.inj h3).symm

lemma inv_runBegin (s : Sys) (id now : Nat) (h : id ∈ s.pending) (hI : Inv s) :
    Inv { db := run_begin s.db id now
          files := s.files
          pending := s.pending.erase id
          running := if (get_report s.db id).isSome then id :: s.running else s.running } := by
  cases hg : get_report s.db id with
  | none =>
      have hdb : run_begin s.db id now = s.db := by
        unfold run_begin
        rw [hg]
      rw [hdb]
      exact
        { statuses := hI.statuses
          fields := hI.fields
          idBound := hI.idBound
          idsNodup := hI.idsNodup
          pendingQueued := fun j hj r hget =>
            hI.pendingQueued j (List.mem_of_mem_erase hj) r hget
          runningProc := hI.runningProc
          prNodup := List.Nodup.sublist
            ((List.erase_sublist id s.pending).append_right s.running) hI.prNodup
          pendingBound := fun j hj => hI.pendingBound j (List.mem_of_mem_erase hj)
          runningBound := hI.runningBound }
  | some r0 =>
      have hq : r0.status = "queued" := hI.pendingQueued id h r0 hg
      have hmem0 : r0 ∈ s.db.reports := get_report_mem hg
      have hfi0 := hI.fields r0 hmem0
      have hfile0 : r0.file_path = none ∧ r0.analysis_results = none :=
        hfi0.not_completed_none (by rw [hq]; decide)
      have hcat0 : r0.completed_at = none := by
        cases h3 : r0.completed_at with
        | none => rfl
        | some v =>
            have h2 := hfi0.completed_at_iff
            rw [hq, h3] at h2
            simp at h2
      have hdb : run_begin s.db id now =
          s.db.update id (fun r => { r with status := "processing", updated_at := now }) := by
        unfold run_begin
        rw [hg]
      rw [hdb]
      have hfid : ∀ r : Report,
          (({ r with status := "processing", updated_at := now } : Report)).id = r.id :=
        fun _ => rfl
      have hinotr : id ∉ s.running := fun hmem => inv_pr_disjoint hI h hmem
      constructor
      case statuses =>
        intro r hr
        rcases mem_update_cases hr with ⟨r1, h1, hb, rfl⟩ | ⟨h1, _⟩
        · simp [statusValues]
        · exact hI.statuses r h1
      case fields =>
        intro r hr
        rcases mem_update_cases hr with ⟨r1, h1, hb, rfl⟩ | ⟨h1, _⟩
        · have he : r1 = r0 := touched_eq hI hg h1 hb
          subst he
          exact ⟨fun hcc => absurd (show ("processing" : String) = "completed" from hcc)
                   (by decide),
                 fun _ => ⟨hfile0.1, hfile0.2⟩,
                 by simp [hcat0]⟩
        · exact hI.fields r h1
      case idBound =>
        intro r hr
        rcases mem_update_cases hr with ⟨r1, h1, hb, rfl⟩ | ⟨h1, _⟩
        · exact hI.idBound r1 h1
        · exact hI.idBound r h1
      case idsNodup =>
        rw [update_ids s.db id _ hfid]
        exact hI.idsNodup
      case pendingQueued =>
        intro j hj r hget
        have hjj := (List.Nodup.mem_erase_iff (inv_pending_nodup hI)).mp hj
        rw [get_report_update_other s.db id _ hfid j hjj.1] at hget
        exact hI.pendingQueued j hjj.2 r hget
      case runningProc =>
        intro j hj r hget
        rcases List.mem_cons.mp hj with rfl | hjr
        · rw [get_report_update_self s.db j _ hfid, hg] at hget
          have h4 : some ({ r0 with status := "processing", updated_at := now } : Report)
              = some r := by simpa using hget
          have h5 := Option.some.inj h4
          rw [← h5]
        · have hjne : j ≠ id := fun he => hinotr (he ▸ hjr)
          rw [get_report_update_other s.db id _ hfid j hjne] at hget
          exact hI.runningProc j hjr r hget
      case prNodup =>
        have h1 : s.pending.Perm (id :: s.pending.erase id) := List.perm_cons_erase h
        have h2 := h1.append_right s.running
        have h3 : ((id :: s.pending.erase id) ++ s.running)
            = id :: (s.pending.erase id ++ s.running) := rfl
        have h4 : (s.pending.erase id ++ id :: s.running).Perm
            (id :: (s.pending.erase id ++ s.running)) := List.perm_middle
        have h5 : (id :: (s.pending.erase id ++ s.running)).Nodup := by
          rw [← h3]
          exact h2.nodup_iff.mp hI.prNodup
        exact h4.nodup_iff.mpr h5
      case pendingBound =>
        intro j hj
        rw [update_nextId]
        exact hI.pendingBound j (List.mem_of_mem_erase hj)
      case runningBound =>
        intro j hj
        rw [update_nextId]
        rcases List.mem_cons.mp hj with rfl | hjr
        · exact hI.pendingBound j h
        · exact hI.runningBound j hjr

lemma fieldInv_failUpdate {r0 : Report} (hfile : r0.file_path = none)
    (hanal : r0.analysis_results = none) (now : Nat) :
    FieldInv (failUpdate now r0) := by
  refine ⟨?_, ?_, ?_⟩
  · intro hcc
    exact absurd (show ("failed" : String) = "completed" from hcc) (by decide)
  · intro _
    exact ⟨hfile, hanal⟩
  · simp [failUpdate]

lemma fieldInv_completeUpdate (p a : String) (now : Nat) (r0 : Report) :
    FieldInv (completeUpdate p a now r0) := by
  refine ⟨?_, ?_, ?_⟩
  · intro _
    exact ⟨rfl, rfl⟩
  · intro hnc
    exact absurd rfl hnc
  · simp [completeUpdate]

lemma inv_terminal_update (s : Sys) (id : Nat) (h : id ∈ s.running) (hI : Inv s)
    (r0 : Report) (hg : get_report s.db id = some r0)
    (u : Report → Report) (hu_id : ∀ r, (u r).id = r.id)
    (hu_status : (u r0).status = "completed" ∨ (u r0).status = "failed")
    (hu_field : FieldInv (u r0)) (files2 : List String) :
    Inv { db := s.db.update id u
          files := files2
          pending := s.pending
          running := s.running.erase id } := by
  have hinotp : id ∉ s.pending := fun hmem => inv_pr_disjoint hI hmem h
  constructor
  case statuses =>
    intro r hr
    rcases mem_update_cases hr with ⟨r1, h1, hb, rfl⟩ | ⟨h1, _⟩
    · have he : r1 = r0 := touched_eq hI hg h1 hb
      rw [he]
      rcases hu_status with hs | hs <;> rw [hs] <;> simp [statusValues]
    · exact hI.statuses r h1
  case fields =>
    intro r hr
    rcases mem_update_cases hr with ⟨r1, h1, hb, rfl⟩ | ⟨h1, _⟩
    · have he : r1 = r0 := touched_eq hI hg h1 hb
      rw [he]
      exact hu_field
    · exact hI.fields r h1
  case idBound =>
    intro r hr
    rcases mem_update_cases hr with ⟨r1, h1, hb, rfl⟩ | ⟨h1, _⟩
    · rw [hu_id r1]
      exact hI.idBound r1 h1
    · exact hI.idBound r h1
  case idsNodup =>
    rw [update_ids s.db id u hu_id]
    exact hI.idsNodup
  case pendingQueued =>
    intro j hj r hget
    have hjne : j ≠ id := fun he2 => hinotp (he2 ▸ hj)
    rw [get_report_update_other s.db id u hu_id j hjne] at hget
    exact hI.pendingQueued j hj r hget
  case runningProc =>
    intro j hj r hget
    have hjj := (List.Nodup.mem_erase_iff (inv_running_nodup hI)).mp hj
    rw [get_report_update_other s.db id u hu_id j hjj.1] at hget
    exact hI.runningProc j hjj.2 r hget
  case prNodup =>
    exact List.Nodup.sublist
      ((List.erase_sublist id s.running).append_left s.pending) hI.prNodup
  case pendingBound =>
    intro j hj
    rw [update_nextId]
    exact hI.pendingBound j hj
  case runningBound =>
    intro j hj
    rw [update_nextId]
    exact hI.runningBound j (List.mem_of_mem_erase hj)

lemma inv_runFinish (s : Sys) (env : PipelineEnv) (id : Nat)
    (h : id ∈ s.running) (hI : Inv s) :
    Inv { db := (run_finish env s.db s.files id).1
          files := (run_finish env s.db s.files id).2
          pending := s.pending
          running := s.running.erase id } := by
  cases hg : get_report s.db id with
  | none =>
      have hrf : run_finish env s.db s.files id = (s.db, s.files) := by
        simp only [run_finish, hg]
      rw [hrf]
      exact
        { statuses := hI.statuses
          fields := hI.fields
          idBound := hI.idBound
          idsNodup := hI.idsNodup
          pendingQueued := hI.pendingQueued
          runningProc := fun j hj r hget =>
            hI.runningProc j (List.mem_of_mem_erase hj) r hget
          prNodup := List.Nodup.sublist
            ((List.erase_sublist id s.running).append_left s.pending) hI.prNodup
          pendingBound := hI.pendingBound
          runningBound := fun j hj => hI.runningBound j (List.mem_of_mem_erase hj) }
  | some r0 =>
      have hp0 : r0.status = "processing" := hI.runningProc id h r0 hg
      have hfi0 := hI.fields r0 (get_report_mem hg)
      have hfa := hfi0.not_completed_none (by rw [hp0]; decide)
      cases hv : env.get_video_data r0.video_id with
      | error e =>
          have hrf : run_finish env s.db s.files id
              = (s.db.update id (failUpdate env.now), s.files) := by
            simp only [run_finish, hg, hv]
          rw [hrf]
          exact inv_terminal_update s id h hI r0 hg (failUpdate env.now)
            (failUpdate_id env.now) (Or.inr rfl)
            (fieldInv_failUpdate hfa.1 hfa.2 env.now) s.files
      | ok vd =>
        cases ha : env.analyze_video vd with
        | error e =>
            have hrf : run_finish env s.db s.files id
                = (s.db.update id (failUpdate env.now), s.files) := by
              simp only [run_finish, hg, hv, ha]
            rw [hrf]
            exact inv_terminal_update s id h hI r0 hg (failUpdate env.now)
              (failUpdate_id env.now) (Or.inr rfl)
              (fieldInv_failUpdate hfa.1 hfa.2 env.now) s.files
        | ok analysis =>
          cases hpdf : env.generate_pdf r0 analysis with
          | error e =>
              have hrf : run_finish env s.db s.files id
                  = (s.db.update id (failUpdate env.now), s.files) := by
                simp only [run_finish, hg, hv, ha, hpdf]
              rw [hrf]
              exact inv_terminal_update s id h hI r0 hg (failUpdate env.now)
                (failUpdate_id env.now) (Or.inr rfl)
                (fieldInv_failUpdate hfa.1 hfa.2 env.now) s.files
          | ok pdf_path =>
              have hrf : run_finish env s.db s.files id
                  = (s.db.update id (completeUpdate pdf_path analysis env.now),
                     s.files ++ [pdf_path]) := by
                simp only [run_finish, hg, hv, ha, hpdf]
              rw [hrf]
              exact inv_terminal_update s id h hI r0 hg
                (completeUpdate pdf_path analysis env.now)
                (completeUpdate_id pdf_path analysis env.now) (Or.inl rfl)
                (fieldInv_completeUpdate pdf_path analysis env.now r0)
                (s.files ++ [pdf_path])

lemma get_report_filter_pull {db : DB} (hnd : (db.reports.map Report.id).Nodup)
    {i j : Nat} {r : Report}
    (hget : (db.reports.filter (fun x => !(x.id == i))).find? (fun x => x.id == j)
      = some r) :
    get_report db j = some r := by
  have hmem : r ∈ db.reports.filter (fun x => !(x.id == i)) :=
    List.mem_of_find?_eq_some hget
  have hpr := List.find?_some hget
  have hmem2 : r ∈ db.reports := (List.mem_filter.mp hmem).1
  have hrid : r.id = j := by simpa [beq_iff_eq] using hpr
  rw [← hrid]
  exact get_report_of_mem db hnd hmem2

lemma inv_delete (s : Sys) (id : Nat) (hI : Inv s) :
    Inv { db := (delete_report s.db id).2
          files := s.files
          pending := s.pending
          running := s.running } := by
  cases hg : get_report s.db id with
  | none =>
      have hd : (delete_report s.db id).2 = s.db := by
        simp only [delete_report, hg]
      rw [hd]
      exact
        { statuses := hI.statuses, fields := hI.fields, idBound := hI.idBound
          idsNodup := hI.idsNodup, pendingQueued := hI.pendingQueued
          runningProc := hI.runningProc, prNodup := hI.prNodup
          pendingBound := hI.pendingBound, runningBound := hI.runningBound }
  | some r0 =>
      have hd : (delete_report s.db id).2
          = { s.db with reports := s.db.reports.filter (fun r => !(r.id == id)) } := by
        simp only [delete_report, hg]
      rw [hd]
      have hsub : List.Sublist (s.db.reports.filter (fun r => !(r.id == id)))
          s.db.reports := List.filter_sublist _
      constructor
      case statuses =>
        intro r hr
        exact hI.statuses r (hsub.subset hr)
      case fields =>
        intro r hr
        exact hI.fields r (hsub.subset hr)
      case idBound =>
        intro r hr
        exact hI.idBound r (hsub.subset hr)
      case idsNodup =>
        exact List.Nodup.sublist (hsub.map Report.id) hI.idsNodup
      case pendingQueued =>
        intro j hj r hget
        exact hI.pendingQueued j hj r (get_report_filter_pull hI.idsNodup hget)
      case runningProc =>
        intro j hj r hget
        exact hI.runningProc j hj r (get_report_filter_pull hI.idsNodup hget)
      case prNodup => exact hI.prNodup
      case pendingBound =>
        intro j hj
        exact hI.pendingBound j hj
      case runningBound =>
        intro j hj
        exact hI.runningBound j hj

lemma inv_step {s t : Sys} (hI : Inv s) (hs : Step s t) : Inv t := by
  cases hs with
  | create rin now => exact inv_create s rin now hI
  | runBegin id now h => exact inv_runBegin s id now h hI
  | runFinish env id h => exact inv_runFinish s env id h hI
  | deleteJob id => exact inv_delete s id hI

lemma reachable_inv {s : Sys} (h : Reachable s) : Inv s := by
  unfold Reachable at h
  induction h with
  | refl => exact inv_init
  | tail h1 h2 ih => exact inv_step ih h2

lemma get_report_create_lt (db : DB) (rin : ReportCreate) (now j : Nat)
    (hj : j < db.nextId) :
    get_report (create_report db rin now).2 j = get_report db j := by
  rw [create_report_db, get_report_append]
  have hb : ((create_report db rin now).1.id == j) = false := by
    rw [create_report_fst_id]
    simp only [beq_eq_false_iff_ne]
    omega
  simp [hb]

lemma step_edges {s t : Sys} (hI : Inv s) (hs : Step s t) :
    ∀ j r r2, get_report s.db j = some r → get_report t.db j = some r2 →
      statusEdge r.status r2.status := by
  cases hs with
  | create rin now =>
      intro j r r2 h1 h2
      have hj : r.id = j := get_report_id h1
      have hjlt : j < s.db.nextId := by
        have := hI.idBound r (get_report_mem h1)
        omega
      rw [get_report_create_lt s.db rin now j hjlt, h1] at h2
      exact Or.inl (by rw [← Option.some.inj h2])
  | runBegin id now h =>
      intro j r r2 h1 h2
      cases hg : get_report s.db id with
      | none =>
          have hdb : run_begin s.db id now = s.db := by
            simp only [run_begin, hg]
          rw [hdb, h1] at h2
          exact Or.inl (by rw [← Option.some.inj h2])
      | some r0 =>
          have hdb : run_begin s.db id now =
              s.db.update id
                (fun x => { x with status := "processing", updated_at := now }) := by
            simp only [run_begin, hg]
          have hfid : ∀ x : Report,
              (({ x with status := "processing", updated_at := now } : Report)).id = x.id :=
            fun _ => rfl
          by_cases hji : j = id
          · subst hji
            have hr0 : r = r0 := (Option.some.inj (hg.symm.trans h1)).symm
            rw [hdb, get_report_update_self s.db j _ hfid, h1] at h2
            have hr2 : r2 = { r with status := "processing", updated_at := now } :=
              (Option.some.inj (by simpa using h2)).symm
            refine Or.inr (Or.inl ⟨?_, by rw [hr2]⟩)
            rw [hr0]
            exact hI.pendingQueued j h r0 hg
          · rw [hdb, get_report_update_other s.db id _ hfid j hji, h1] at h2
            exact Or.inl (by rw [← Option.some.inj h2])
  | runFinish env id h =>
      intro j r r2 h1 h2
      cases hg : get_report s.db id with
      | none =>
          have hrf : run_finish env s.db s.files id = (s.db, s.files) := by
            simp only [run_finish, hg]
          rw [hrf] at h2
          rw [h1] at h2
          exact Or.inl (by rw [← Option.some.inj h2])
      | some r0 =>
          have hp0 : r0.status = "processing" := hI.runningProc id h r0 hg
          have hterm : ∀ u : Report → Report, (∀ x, (u x).id = x.id) →
              ((u r0).status = "completed" ∨ (u r0).status = "failed") →
              (run_finish env s.db s.files id).1 = s.db.update id u →
              statusEdge r.status r2.status := by
            intro u hu hus hrw
            by_cases hji : j = id
            · subst hji
              have hr0 : r = r0 := (Option.some.inj (hg.symm.trans h1)).symm
              rw [hrw, get_report_update_self s.db j u hu, h1] at h2
              have hr2 : r2 = u r := (Option.some.inj (by simpa using h2)).symm
              refine Or.inr (Or.inr ⟨by rw [hr0]; exact hp0, ?_⟩)
              rw [hr2, hr0]
              rcases hus with hc | hc
              · exact Or.inl hc
              · exact Or.inr hc
            · rw [hrw, get_report_update_other s.db id u hu j hji, h1] at h2
              exact Or.inl (by rw [← Option.some.inj h2])
          cases hv : env.get_video_data r0.video_id with
          | error e =>
              exact hterm (failUpdate env.now) (failUpdate_id env.now) (Or.inr rfl)
                (by simp only [run_finish, hg, hv])
          | ok vd =>
            cases ha : env.analyze_video vd with
            | error e =>
                exact hterm (failUpdate env.now) (failUpdate_id env.now) (Or.inr rfl)
                  (by simp only [run_finish, hg, hv, ha])
            | ok analysis =>
              cases hpdf : env.generate_pdf r0 analysis with
              | error e =>
                  exact hterm (failUpdate env.now) (failUpdate_id env.now) (Or.inr rfl)
                    (by simp only [run_finish, hg, hv, ha, hpdf])
              | ok pdf_path =>
                  exact hterm (completeUpdate pdf_path analysis env.now)
                    (completeUpdate_id pdf_path analysis env.now) (Or.inl rfl)
                    (by simp only [run_finish, hg, hv, ha, hpdf])
  | deleteJob id =>
      intro j r r2 h1 h2
      cases hg : get_report s.db id with
      | none =>
          have hd : (delete_report s.db id).2 = s.db := by
            simp only [delete_report, hg]
          rw [hd, h1] at h2
          exact Or.inl (by rw [← Option.some.inj h2])
      | some r0 =>
          have hd : (delete_report s.db id).2
              = { s.db with
                  reports := s.db.reports.filter (fun x => !(x.id == id)) } := by
            simp only [delete_report, hg]
          rw [hd] at h2
          have h3 : get_report s.db j = some r2 :=
            get_report_filter_pull hI.idsNodup h2
          rw [h1] at h3
          exact Or.inl (by rw [← Option.some.inj h3])

end PipelineSystem

/-- C9: every report creation submitted from the Scouting Report page has
`description` equal to "Scouting report for " followed by the entered team
name when it is non-empty and by "opponent team" otherwise, `video_id`
equal to the integer parse of the selected video id, and no creation
request is sent at all unless a video is selected and the report title is
non-empty. -/
theorem claim_C9_create_request_shape
    (videos : List ScoutingReportPage.Video) (userId : Nat)
    (sv rt tn opp : String) :
    (sv = "" ∨ rt = "" →
      (ScoutingReportPage.handleCreateReport videos userId sv rt tn opp).request = none) ∧
    (∀ body,
      (ScoutingReportPage.handleCreateReport videos userId sv rt tn opp).request = some body →
      body.description =
        "Scouting report for " ++ (if tn = "" then "opponent team" else tn) ∧
      body.video_id = jsParseInt sv ∧
      body.title = rt ∧ sv ≠ "" ∧ rt ≠ "") := by
  by_cases hsv : sv = ""
  · constructor
    · intro _
      simp [ScoutingReportPage.handleCreateReport, hsv]
    · intro body hbody
      simp [ScoutingReportPage.handleCreateReport, hsv] at hbody
  · by_cases hrt : rt = ""
    · constructor
      · intro _
        simp [ScoutingReportPage.handleCreateReport, hsv, hrt]
      · intro body hbody
        simp [ScoutingReportPage.handleCreateReport, hsv, hrt] at hbody
    · constructor
      · intro hor
        rcases hor with h | h
        · exact absurd h hsv
        · exact absurd h hrt
      · intro body hbody
        simp only [ScoutingReportPage.handleCreateReport, if_neg hsv, if_neg hrt] at hbody
        have hb := (Option.some.inj hbody).symm
        rw [hb]
        exact ⟨rfl, rfl, rfl, hsv, hrt⟩

/-- Witness for C9 at a concrete page state: a selected video "7", a
non-empty title and an empty team name; the request body the page sends is
computed and the theorem applied to it. -/
theorem claim_C9_witness :
    ({ title := "Report A", description := "Scouting report for opponent team"
       video_id := some 7, video_title := "", team_name := ""
       opponent_name := "Opp", user_id := 1 } :
        ScoutingReportPage.ReportData).description =
      "Scouting report for " ++ (if ("" : String) = "" then "opponent team" else "") ∧
    ({ title := "Report A", description := "Scouting report for opponent team"
       video_id := some 7, video_title := "", team_name := ""
       opponent_name := "Opp", user_id := 1 } :
        ScoutingReportPage.ReportData).video_id = jsParseInt "7" ∧
    ({ title := "Report A", description := "Scouting report for opponent team"
       video_id := some 7, video_title := "", team_name := ""
       opponent_name := "Opp", user_id := 1 } :
        ScoutingReportPage.ReportData).title = "Report A" ∧
    ("7" : String) ≠ "" ∧ ("Report A" : String) ≠ "" :=
  (claim_C9_create_request_shape [] 1 "7" "Report A" "" "Opp").2
    { title := "Report A", description := "Scouting report for opponent team"
      video_id := some 7, video_title := "", team_name := ""
      opponent_name := "Opp", user_id := 1 } rfl

/-- C10: for every invocation of `getReports`, `getReportById`,
`createReport` or `deleteReport`, provided the supplied callbacks do not
throw (callbacks are pure events in this model), exactly one of the two
callbacks is invoked and the promise never rejects (each controller is a
total function into a callback list rather than into an exceptional
result): every network failure, non-OK response, unparsable body, or body
without status "success" becomes a single `onError` carrying a message
string. -/
theorem claim_C10_controllers_single_callback
    (α : Type) (o : ScoutingController.FetchOutcome α) :
    ((ScoutingController.getReports α o).length = 1 ∧
     (ScoutingController.getReportById α o).length = 1 ∧
     (ScoutingController.createReport α o).length = 1 ∧
     (ScoutingController.deleteReport α o).length = 1) ∧
    (ScoutingController.failureOutcome α o = true →
      (∃ m, ScoutingController.getReports α o = [.onError m]) ∧
      (∃ m, ScoutingController.getReportById α o = [.onError m]) ∧
      (∃ m, ScoutingController.createReport α o = [.onError m]) ∧
      (∃ m, ScoutingController.deleteReport α o = [.onError m])) := by
  rcases o with m | ⟨rok, bp⟩
  · exact ⟨⟨rfl, rfl, rfl, rfl⟩,
      fun _ => ⟨⟨m, rfl⟩, ⟨m, rfl⟩, ⟨m, rfl⟩, ⟨m, rfl⟩⟩⟩
  · rcases bp with m | body
    · exact ⟨⟨rfl, rfl, rfl, rfl⟩,
        fun _ => ⟨⟨m, rfl⟩, ⟨m, rfl⟩, ⟨m, rfl⟩, ⟨m, rfl⟩⟩⟩
    · cases rok with
      | false =>
          exact ⟨⟨rfl, rfl, rfl, rfl⟩,
            fun _ => ⟨⟨_, rfl⟩, ⟨_, rfl⟩, ⟨_, rfl⟩, ⟨_, rfl⟩⟩⟩
      | true =>
          by_cases hs : (body.statusField == some "success") = true
          · by_cases hd : body.dataField.isSome = true
            · refine ⟨⟨?_, ?_, ?_, ?_⟩, ?_⟩
              · simp [ScoutingController.getReports,
                  ScoutingController.getReportsTry, hs, hd]
              · simp [ScoutingController.getReportById,
                  ScoutingController.getReportByIdTry, hs, hd]
              · simp [ScoutingController.createReport,
                  ScoutingController.createReportTry, hs]
              · simp [ScoutingController.deleteReport,
                  ScoutingController.deleteReportTry, hs]
              · intro hfo
                simp [ScoutingController.failureOutcome, hs] at hfo
            · refine ⟨⟨?_, ?_, ?_, ?_⟩, ?_⟩
              · simp [ScoutingController.getReports,
                  ScoutingController.getReportsTry, hs, hd]
              · simp [ScoutingController.getReportById,
                  ScoutingController.getReportByIdTry, hs, hd]
              · simp [ScoutingController.createReport,
                  ScoutingController.createReportTry, hs]
              · simp [ScoutingController.deleteReport,
                  ScoutingController.deleteReportTry, hs]
              · intro hfo
                simp [ScoutingController.failureOutcome, hs] at hfo
          · refine ⟨⟨?_, ?_, ?_, ?_⟩, ?_⟩
            · simp [ScoutingController.getReports,
                ScoutingController.getReportsTry, hs]
            · simp [ScoutingController.getReportById,
                ScoutingController.getReportByIdTry, hs]
            · simp [ScoutingController.createReport,
                ScoutingController.createReportTry, hs]
            · simp [ScoutingController.deleteReport,
                ScoutingController.deleteReportTry, hs]
            · intro _
              refine ⟨⟨jsOrElse body.messageField "Failed to fetch reports", ?_⟩,
                ⟨jsOrElse body.messageField "Failed to fetch report", ?_⟩,
                ⟨jsOrElse body.messageField "Failed to create report", ?_⟩,
                ⟨jsOrElse body.messageField "Failed to delete report", ?_⟩⟩
              · simp [ScoutingController.getReports,
                  ScoutingController.getReportsTry, hs]
              · simp [ScoutingController.getReportById,
                  ScoutingController.getReportByIdTry, hs]
              · simp [ScoutingController.createReport,
                  ScoutingController.createReportTry, hs]
              · simp [ScoutingController.deleteReport,
                  ScoutingController.deleteReportTry, hs]

/-- Witness for C10 at a concrete failing outcome: a rejected fetch. -/
theorem claim_C10_witness :
    (∃ m, ScoutingController.getReports Nat (.netFailure "network down")
      = [.onError m]) ∧
    (∃ m, ScoutingController.getReportById Nat (.netFailure "network down")
      = [.onError m]) ∧
    (∃ m, ScoutingController.createReport Nat (.netFailure "network down")
      = [.onError m]) ∧
    (∃ m, ScoutingController.deleteReport Nat (.netFailure "network down")
      = [.onError m]) :=
  (claim_C10_controllers_single_callback Nat (.netFailure "network down")).2 rfl

/-- C7: listing jobs returns them ordered by creation time descending with
offset/limit pagination; with an `ownerId` filter only that owner's jobs
are returned; and on the concrete store of Scenario D (owner 1 with three
jobs, `limit = 2`) the list is exactly the two most recently created jobs,
newest first. -/
theorem claim_C7_list_reports
    (db : ReportService.DB) (uid skip limit : Nat) :
    (∀ e ∈ ReportService.get_reports db (some uid) skip limit,
      e.user_id = some uid) ∧
    (ReportService.get_reports db (some uid) skip limit).Pairwise
      (fun a b => b.created_at ≤ a.created_at) ∧
    (ReportService.get_reports db (some uid) skip limit).length =
      min limit
        ((db.reports.filter (fun r => r.user_id == some uid)).length - skip) ∧
    ReportService.get_reports exampleDb (some 1) 0 2 =
      [ReportService.serializeReport false exJob3,
       ReportService.serializeReport false exJob2] := by
  refine ⟨?_, ?_, ?_, by decide⟩
  · intro e he
    simp only [ReportService.get_reports, List.mem_map] at he
    obtain ⟨r, hr, rfl⟩ := he
    have hr2 : r ∈ (db.reports.filter
        (fun x => x.user_id == some uid)).insertionSort ReportService.createdDesc := by
      simp only [ReportService.get_reports_rows] at hr
      exact List.mem_of_mem_drop (List.mem_of_mem_take hr)
    have hr3 : r ∈ db.reports.filter (fun x => x.user_id == some uid) :=
      (List.perm_insertionSort ReportService.createdDesc _).mem_iff.mp hr2
    have := (List.mem_filter.mp hr3).2
    simpa [ReportService.serializeReport] using this
  · have hsorted : ((db.reports.filter
        (fun x => x.user_id == some uid)).insertionSort
          ReportService.createdDesc).Pairwise ReportService.createdDesc :=
      List.sorted_insertionSort ReportService.createdDesc _
    have hsub : List.Sublist (ReportService.get_reports_rows db (some uid) skip limit)
        ((db.reports.filter
          (fun x => x.user_id == some uid)).insertionSort ReportService.createdDesc) := by
      simp only [ReportService.get_reports_rows]
      exact (List.take_sublist limit _).trans (List.drop_sublist skip _)
    have hrows : (ReportService.get_reports_rows db (some uid) skip limit).Pairwise
        ReportService.createdDesc := hsorted.sublist hsub
    simp only [ReportService.get_reports]
    exact List.pairwise_map.mpr hrows
  · simp only [ReportService.get_reports, List.length_map,
      ReportService.get_reports_rows, List.length_take, List.length_drop]
    rw [(List.perm_insertionSort ReportService.createdDesc _).length_eq]

/-- Counterexample for C8: on a system state holding one completed job and
its stored artifact file, the delete endpoint succeeds and a subsequent
`GetJob` returns NotFound, but the artifact file is still present in
storage — the delete does not remove the associated artifact, contrary to
the claim. -/
theorem claim_C8_counterexample :
    (PipelineSystem.deleteJobFull sysC 1).1 = true ∧
    ReportsRoutes.get_report_endpoint (PipelineSystem.deleteJobFull sysC 1).2.db 1
      = none ∧
    completedR.file_path = some "/app/reports/scouting_report_1.pdf" ∧
    "/app/reports/scouting_report_1.pdf" ∈ (PipelineSystem.deleteJobFull sysC 1).2.files := by
  refine ⟨rfl, rfl, rfl, ?_⟩
  decide

/-- C8 as amended: after a delete of any job id, `GetJob` on that id
returns NotFound and the delete returned true exactly when the job
existed; the delete removes only the job record — the artifact file store
is unchanged. -/
theorem claim_C8_delete_then_get_not_found (s : PipelineSystem.Sys) (id : Nat) :
    ReportsRoutes.get_report_endpoint (PipelineSystem.deleteJobFull s id).2.db id
      = none ∧
    (PipelineSystem.deleteJobFull s id).2.files = s.files ∧
    ((PipelineSystem.deleteJobFull s id).1 = true ↔
      ReportService.get_report s.db id ≠ none) := by
  cases hg : ReportService.get_report s.db id with
  | none =>
      have hd : PipelineSystem.deleteJobFull s id = (false, s) := by
        simp only [PipelineSystem.deleteJobFull, ReportService.delete_report, hg]
      rw [hd]
      refine ⟨?_, rfl, ?_⟩
      · simp only [ReportsRoutes.get_report_endpoint,
          ReportService.get_report_detail, hg]
        rfl
      · simp [hg]
  | some r0 =>
      have hd : PipelineSystem.deleteJobFull s id =
          (true, { s with db := { s.db with
            reports := s.db.reports.filter (fun r => !(r.id == id)) } }) := by
        simp only [PipelineSystem.deleteJobFull, ReportService.delete_report, hg]
      rw [hd]
      refine ⟨?_, rfl, ?_⟩
      · have hnone : (s.db.reports.filter (fun r => !(r.id == id))).find?
            (fun r => r.id == id) = none := by
          apply List.find?_eq_none.mpr
          intro x hx
          have := (List.mem_filter.mp hx).2
          simp only [Bool.not_eq_true'] at this
          simp [this]
        simp only [ReportsRoutes.get_report_endpoint, ReportService.get_report_detail,
          ReportService.get_report]
        rw [hnone]
        rfl
      · simp [hg]

lemma get_report_create_new (db : ReportService.DB) (rin : ReportService.ReportCreate)
    (now : Nat) (hb : ∀ r ∈ db.reports, r.id < db.nextId) :
    ReportService.get_report (ReportService.create_report db rin now).2 db.nextId
      = some (ReportService.create_report db rin now).1 := by
  rw [PipelineSystem.create_report_db, PipelineSystem.get_report_append]
  have hnone : ReportService.get_report db db.nextId = none := by
    apply List.find?_eq_none.mpr
    intro r hr
    have := hb r hr
    simp only [beq_iff_eq]
    omega
  rw [hnone, PipelineSystem.create_report_fst_id]
  simp

/-- C5: `CreateJob` persists the new job with initial status queued and
returns its job id in an immediate 202 response; the pipeline run is
dispatched as exactly one background task for the new id, executed only
after the response is fixed, and no outcome of that execution (for any
pipeline environment, including failing ones) changes the response
returned to the creating caller. -/
theorem claim_C5_create_queued_async
    (env : ReportService.PipelineEnv) (db : ReportService.DB)
    (files : List String) (rin : ReportService.ReportCreate) (now : Nat)
    (hb : ∀ r ∈ db.reports, r.id < db.nextId) :
    (ReportsRoutes.create_report_endpoint db rin now).1.data_report_id = db.nextId ∧
    (ReportsRoutes.create_report_endpoint db rin now).1.status = "success" ∧
    (ReportsRoutes.create_report_endpoint db rin now).1.status_code = 202 ∧
    (ReportsRoutes.create_report_endpoint db rin now).1.message
      = "Report creation initiated" ∧
    (∃ r, ReportService.get_report (ReportsRoutes.create_report_endpoint db rin now).2.1
        ((ReportsRoutes.create_report_endpoint db rin now).1.data_report_id) = some r ∧
      r.status = "queued" ∧ r.file_path = none ∧ r.analysis_results = none ∧
      r.completed_at = none) ∧
    (ReportsRoutes.create_report_endpoint db rin now).2.2 = [db.nextId] ∧
    (ReportsRoutes.create_then_background env db files rin now).1
      = (ReportsRoutes.create_report_endpoint db rin now).1 := by
  refine ⟨rfl, rfl, rfl, rfl, ?_, rfl, rfl⟩
  refine ⟨(ReportService.create_report db rin now).1, ?_, rfl, rfl, rfl, rfl⟩
  exact get_report_create_new db rin now hb

/-- Witness for C5 on the concrete one-report store, with the
render-failing environment showing the response is unaffected by a failing
execution. -/
theorem claim_C5_witness :
    (ReportsRoutes.create_report_endpoint dbQ rin0 20).1.data_report_id = dbQ.nextId ∧
    (ReportsRoutes.create_report_endpoint dbQ rin0 20).1.status = "success" ∧
    (ReportsRoutes.create_report_endpoint dbQ rin0 20).1.status_code = 202 ∧
    (ReportsRoutes.create_report_endpoint dbQ rin0 20).1.message
      = "Report creation initiated" ∧
    (∃ r, ReportService.get_report (ReportsRoutes.create_report_endpoint dbQ rin0 20).2.1
        ((ReportsRoutes.create_report_endpoint dbQ rin0 20).1.data_report_id) = some r ∧
      r.status = "queued" ∧ r.file_path = none ∧ r.analysis_results = none ∧
      r.completed_at = none) ∧
    (ReportsRoutes.create_report_endpoint dbQ rin0 20).2.2 = [dbQ.nextId] ∧
    (ReportsRoutes.create_then_background envFailRender dbQ [] rin0 20).1
      = (ReportsRoutes.create_report_endpoint dbQ rin0 20).1 :=
  claim_C5_create_queued_async envFailRender dbQ [] rin0 20 (by decide)

/-- C3: if any of the three pipeline steps of `RunJob` fails on a job whose
artifact and analysis fields are still null, the exception is absorbed at
the orchestrator boundary and the job ends in status failed with
`completed_at` set and with `artifact_location` (`file_path`) and
`analysis_result` still null, and no artifact file is written; in
particular, when rendering fails after a successful analysis, the analysis
result remains null. -/
theorem claim_C3_failure_no_partial_result
    (env : ReportService.PipelineEnv) (db : ReportService.DB)
    (files : List String) (id : Nat) (r : ReportService.Report)
    (hget : ReportService.get_report db id = some r)
    (hfile : r.file_path = none) (hanal : r.analysis_results = none)
    (hfail : ReportService.pipelineFails env
      (ReportService.processingOf env.now r) = true) :
    ∃ r2, ReportService.get_report
        (ReportService.generate_report env db files id).1 id = some r2 ∧
      r2.status = "failed" ∧ r2.file_path = none ∧ r2.analysis_results = none ∧
      r2.completed_at = some env.now ∧
      (ReportService.generate_report env db files id).2 = files := by
  have hfid1 : ∀ x : ReportService.Report,
      (ReportService.processingOf env.now x).id = x.id := fun _ => rfl
  have hbeg : ReportService.run_begin db id env.now
      = db.update id (ReportService.processingOf env.now) := by
    simp only [ReportService.run_begin, hget]
    rfl
  have hget1 : ReportService.get_report (ReportService.run_begin db id env.now) id
      = some (ReportService.processingOf env.now r) := by
    rw [hbeg, PipelineSystem.get_report_update_self db id _ hfid1, hget]
    rfl
  have hgen : ReportService.generate_report env db files id
      = ReportService.run_finish env (ReportService.run_begin db id env.now) files id := rfl
  rw [hgen]
  have hfinish : ∀ hrw : ReportService.run_finish env
        (ReportService.run_begin db id env.now) files id
      = ((ReportService.run_begin db id env.now).update id
          (ReportService.failUpdate env.now), files),
      ∃ r2, ReportService.get_report
          (ReportService.run_finish env (ReportService.run_begin db id env.now) files id).1
            id = some r2 ∧
        r2.status = "failed" ∧ r2.file_path = none ∧ r2.analysis_results = none ∧
        r2.completed_at = some env.now ∧
        (ReportService.run_finish env (ReportService.run_begin db id env.now) files id).2
          = files := by
    intro hrw
    rw [hrw]
    refine ⟨ReportService.failUpdate env.now (ReportService.processingOf env.now r),
      ?_, rfl, ?_, ?_, rfl, rfl⟩
    · rw [PipelineSystem.get_report_update_self _ id _
        (PipelineSystem.failUpdate_id env.now), hget1]
      rfl
    · exact hfile
    · exact hanal
  cases hv : env.get_video_data (ReportService.processingOf env.now r).video_id with
  | error e =>
      exact hfinish (by simp only [ReportService.run_finish, hget1, hv])
  | ok vd =>
    cases ha : env.analyze_video vd with
    | error e =>
        exact hfinish (by simp only [ReportService.run_finish, hget1, hv, ha])
    | ok analysis =>
      cases hpdf : env.generate_pdf (ReportService.processingOf env.now r) analysis with
      | error e =>
          exact hfinish (by simp only [ReportService.run_finish, hget1, hv, ha, hpdf])
      | ok p =>
          exfalso
          simp only [ReportService.pipelineFails, hv, ha, hpdf] at hfail
          exact absurd hfail (by decide)

/-- Witness for C3: Scenario C on the concrete queued report — metadata
and analysis succeed, the render step raises, and the job ends failed with
a null analysis result and no artifact written. -/
theorem claim_C3_witness :
    ∃ r2, ReportService.get_report
        (ReportService.generate_report envFailRender dbQ [] 1).1 1 = some r2 ∧
      r2.status = "failed" ∧ r2.file_path = none ∧ r2.analysis_results = none ∧
      r2.completed_at = some envFailRender.now ∧
      (ReportService.generate_report envFailRender dbQ [] 1).2 = [] :=
  claim_C3_failure_no_partial_result envFailRender dbQ [] 1 reportQ rfl rfl rfl rfl

/-- Counterexample for C4: the recovered `generate_report` has no status
guard, so re-invoking `RunJob` on a job already completed does not leave
the record byte-for-byte unchanged — with all steps succeeding at a later
instant the record is re-written (its `completed_at` becomes the new run's
time). -/
theorem claim_C4_counterexample :
    ReportService.get_report dbC 1 = some completedR ∧
    completedR.status = "completed" ∧
    (ReportService.generate_report envOk dbC [] 1).1 ≠ dbC := by
  refine ⟨rfl, rfl, ?_⟩
  decide

/-- C4 as amended: `RunJob(jobId)` is a no-op only when the job id does not
exist; on an existing job it re-executes the pipeline regardless of the
current status — with all three steps succeeding the record is overwritten
with the new run's results and a fresh artifact is written. -/
theorem claim_C4_no_guard (env : ReportService.PipelineEnv)
    (db : ReportService.DB) (files : List String) (id : Nat) :
    (ReportService.get_report db id = none →
      ReportService.generate_report env db files id = (db, files)) ∧
    (∀ r vd an p, ReportService.get_report db id = some r →
      env.get_video_data (ReportService.processingOf env.now r).video_id = .ok vd →
      env.analyze_video vd = .ok an →
      env.generate_pdf (ReportService.processingOf env.now r) an = .ok p →
      ∃ r2, ReportService.get_report
          (ReportService.generate_report env db files id).1 id = some r2 ∧
        r2 = ReportService.completeUpdate p an env.now
          (ReportService.processingOf env.now r) ∧
        (ReportService.generate_report env db files id).2 = files ++ [p]) := by
  constructor
  · intro hnone
    show ReportService.run_finish env (ReportService.run_begin db id env.now) files id
      = (db, files)
    have hbeg : ReportService.run_begin db id env.now = db := by
      simp only [ReportService.run_begin, hnone]
    rw [hbeg]
    simp only [ReportService.run_finish, hnone]
  · intro r vd an p hget hv ha hp
    have hfid1 : ∀ x : ReportService.Report,
        (ReportService.processingOf env.now x).id = x.id := fun _ => rfl
    have hbeg : ReportService.run_begin db id env.now
        = db.update id (ReportService.processingOf env.now) := by
      simp only [ReportService.run_begin, hget]
      rfl
    have hget1 : ReportService.get_report (ReportService.run_begin db id env.now) id
        = some (ReportService.processingOf env.now r) := by
      rw [hbeg, PipelineSystem.get_report_update_self db id _ hfid1, hget]
      rfl
    have hrw : ReportService.generate_report env db files id
        = ((ReportService.run_begin db id env.now).update id
            (ReportService.completeUpdate p an env.now), files ++ [p]) := by
      show ReportService.run_finish env (ReportService.run_begin db id env.now) files id = _
      simp only [ReportService.run_finish, hget1, hv, ha, hp]
    rw [hrw]
    refine ⟨ReportService.completeUpdate p an env.now
      (ReportService.processingOf env.now r), ?_, rfl, rfl⟩
    rw [PipelineSystem.get_report_update_self _ id _
      (PipelineSystem.completeUpdate_id p an env.now), hget1]
    rfl

/-- Witness for C4's amended statement: a missing id is a no-op, and
re-running the completed job re-executes the pipeline and overwrites the
record. -/
theorem claim_C4_witness :
    ReportService.generate_report envOk dbC [] 99 = (dbC, []) ∧
    (∃ r2, ReportService.get_report
        (ReportService.generate_report envOk dbC [] 1).1 1 = some r2 ∧
      r2 = ReportService.completeUpdate "/app/reports/scouting_report_1.pdf"
        "analysis-doc" envOk.now (ReportService.processingOf envOk.now completedR) ∧
      (ReportService.generate_report envOk dbC [] 1).2
        = [] ++ ["/app/reports/scouting_report_1.pdf"]) :=
  ⟨(claim_C4_no_guard envOk dbC [] 99).1 rfl,
   (claim_C4_no_guard envOk dbC [] 1).2 completedR "video-metadata" "analysis-doc"
     "/app/reports/scouting_report_1.pdf" rfl rfl rfl rfl⟩

lemma step_init_create : PipelineSystem.Step PipelineSystem.initSys step1Sys :=
  PipelineSystem.Step.create PipelineSystem.initSys rin0 5

lemma reach_step1 : PipelineSystem.Reachable step1Sys :=
  Relation.ReflTransGen.single step_init_create

/-- C1: in every reachable system state every job's status is one of
queued, processing, completed, failed; every observable step moves each
job's status only along the edges queued → processing → (completed or
failed) (or leaves it unchanged); a terminal status is immutable
thereafter; and no step ever moves a job back to queued. -/
theorem claim_C1_status_state_machine (s t : PipelineSystem.Sys)
    (hreach : PipelineSystem.Reachable s) (hstep : PipelineSystem.Step s t) :
    (∀ r ∈ t.db.reports, r.status ∈ PipelineSystem.statusValues) ∧
    (∀ j r r2, ReportService.get_report s.db j = some r →
      ReportService.get_report t.db j = some r2 →
      PipelineSystem.statusEdge r.status r2.status) ∧
    (∀ j r r2, ReportService.get_report s.db j = some r →
      ReportService.get_report t.db j = some r2 →
      (r.status = "completed" ∨ r.status = "failed") → r2.status = r.status) ∧
    (∀ j r r2, ReportService.get_report s.db j = some r →
      ReportService.get_report t.db j = some r2 →
      r2.status = "queued" → r.status = "queued") := by
  have hI := PipelineSystem.reachable_inv hreach
  have hI2 := PipelineSystem.inv_step hI hstep
  refine ⟨hI2.statuses, PipelineSystem.step_edges hI hstep, ?_, ?_⟩
  · intro j r r2 h1 h2 hterm
    rcases PipelineSystem.step_edges hI hstep j r r2 h1 h2 with he | ⟨hq, _⟩ | ⟨hq, _⟩
    · exact he
    · rcases hterm with hc | hc <;> rw [hq] at hc <;> exact absurd hc (by decide)
    · rcases hterm with hc | hc <;> rw [hq] at hc <;> exact absurd hc (by decide)
  · intro j r r2 h1 h2 hq2
    rcases PipelineSystem.step_edges hI hstep j r r2 h1 h2 with he | ⟨hq, _⟩ | ⟨_, hcf⟩
    · rw [← he]
      exact hq2
    · exact hq
    · rcases hcf with hc | hc <;> rw [hq2] at hc <;> exact absurd hc (by decide)

/-- Witness for C1 at the concrete first step: the creation step from the
empty initial state. -/
theorem claim_C1_witness :
    (∀ r ∈ step1Sys.db.reports, r.status ∈ PipelineSystem.statusValues) ∧
    (∀ j r r2, ReportService.get_report PipelineSystem.initSys.db j = some r →
      ReportService.get_report step1Sys.db j = some r2 →
      PipelineSystem.statusEdge r.status r2.status) ∧
    (∀ j r r2, ReportService.get_report PipelineSystem.initSys.db j = some r →
      ReportService.get_report step1Sys.db j = some r2 →
      (r.status = "completed" ∨ r.status = "failed") → r2.status = r.status) ∧
    (∀ j r r2, ReportService.get_report PipelineSystem.initSys.db j = some r →
      ReportService.get_report step1Sys.db j = some r2 →
      r2.status = "queued" → r.status = "queued") :=
  claim_C1_status_state_machine PipelineSystem.initSys step1Sys
    Relation.ReflTransGen.refl step_init_create

/-- C2: in every reachable system state, a job's status is completed
exactly when its artifact location, analysis result and completion
timestamp are all non-null, and in any non-completed status the artifact
location and analysis result are null. -/
theorem claim_C2_completed_iff_fields (s : PipelineSystem.Sys)
    (hreach : PipelineSystem.Reachable s) :
    ∀ r ∈ s.db.reports,
      (r.status = "completed" ↔
        (r.file_path ≠ none ∧ r.analysis_results ≠ none ∧ r.completed_at ≠ none)) ∧
      (r.status ≠ "completed" → r.file_path = none ∧ r.analysis_results = none) := by
  intro r hr
  have hfi := (PipelineSystem.reachable_inv hreach).fields r hr
  refine ⟨⟨?_, ?_⟩, hfi.not_completed_none⟩
  · intro hc
    have h1 := hfi.completed_some hc
    have h2 := hfi.completed_at_iff.mpr (Or.inl hc)
    exact ⟨Option.isSome_iff_ne_none.mp h1.1, Option.isSome_iff_ne_none.mp h1.2,
      Option.isSome_iff_ne_none.mp h2⟩
  · intro hall
    by_contra hnc
    exact hall.1 (hfi.not_completed_none hnc).1

/-- Witness for C2 at the concrete reachable state holding one queued
job, instantiated at that job. -/
theorem claim_C2_witness :
    ((ReportService.create_report PipelineSystem.initSys.db rin0 5).1.status = "completed" ↔
      ((ReportService.create_report PipelineSystem.initSys.db rin0 5).1.file_path ≠ none ∧
       (ReportService.create_report PipelineSystem.initSys.db rin0 5).1.analysis_results ≠ none ∧
       (ReportService.create_report PipelineSystem.initSys.db rin0 5).1.completed_at ≠ none)) ∧
    ((ReportService.create_report PipelineSystem.initSys.db rin0 5).1.status ≠ "completed" →
      (ReportService.create_report PipelineSystem.initSys.db rin0 5).1.file_path = none ∧
      (ReportService.create_report PipelineSystem.initSys.db rin0 5).1.analysis_results = none) :=
  claim_C2_completed_iff_fields step1Sys reach_step1
    (ReportService.create_report PipelineSystem.initSys.db rin0 5).1 (by decide)

/-- C6: in every reachable state, the detail endpoint exposes a download
reference exactly for completed jobs and an analysis document only for
completed jobs; for a job in any other status the analysis and download
fields are null, the download endpoint answers NotFound, and the report
card's download button is disabled; list entries never carry the analysis
document at all. -/
theorem claim_C6_results_only_when_completed (s : PipelineSystem.Sys)
    (hreach : PipelineSystem.Reachable s) (id : Nat)
    (det : ReportService.ReportOut)
    (hdet : ReportsRoutes.get_report_endpoint s.db id = some det) :
    (det.download_url.isSome = true ↔ det.status = "completed") ∧
    (det.analysis_results ≠ none → det.status = "completed") ∧
    (det.status ≠ "completed" →
      det.analysis_results = none ∧ det.download_url = none ∧
      ReportsRoutes.download_report_endpoint s.db id = none ∧
      ReportCard.downloadDisabled det.status det.download_url = true) ∧
    (∀ uid skip limit, ∀ e ∈ ReportService.get_reports s.db uid skip limit,
      e.analysis_results = none) := by
  simp only [ReportsRoutes.get_report_endpoint, ReportService.get_report_detail] at hdet
  cases hg : ReportService.get_report s.db id with
  | none =>
      rw [hg] at hdet
      exact absurd hdet (by simp)
  | some r =>
      rw [hg] at hdet
      have hdr : det = ReportService.serializeReport true r := (Option.some.inj hdet).symm
      subst hdr
      have hfi := (PipelineSystem.reachable_inv hreach).fields r
        (PipelineSystem.get_report_mem hg)
      have hlist : ∀ uid skip limit,
          ∀ e ∈ ReportService.get_reports s.db uid skip limit,
          e.analysis_results = none := by
        intro uid skip limit e he
        simp only [ReportService.get_reports, List.mem_map] at he
        obtain ⟨r1, _, rfl⟩ := he
        simp [ReportService.serializeReport]
      by_cases hc : r.status = "completed"
      · refine ⟨?_, fun _ => ?_, fun hnc => absurd ?_ hnc, hlist⟩
        · simp [ReportService.serializeReport, hc]
        · simp [ReportService.serializeReport, hc]
        · simp [ReportService.serializeReport, hc]
      · have hna := hfi.not_completed_none hc
        refine ⟨?_, ?_, fun _ => ⟨?_, ?_, ?_, ?_⟩, hlist⟩
        · simp [ReportService.serializeReport, hc]
        · intro hne
          exact absurd (by simp [ReportService.serializeReport, hna.2]) hne
        · simp [ReportService.serializeReport, hna.2]
        · simp [ReportService.serializeReport, hc]
        · simp only [ReportsRoutes.download_report_endpoint,
            ReportService.get_report_file_path, hg, hna.1]
        · simp [ReportCard.downloadDisabled, ReportService.serializeReport, hc]

/-- Witness for C6 at the concrete reachable state holding one queued job:
its detail view. -/
theorem claim_C6_witness :
    (let det := ReportService.serializeReport true
        (ReportService.create_report PipelineSystem.initSys.db rin0 5).1
     (det.download_url.isSome = true ↔ det.status = "completed") ∧
     (det.analysis_results ≠ none → det.status = "completed") ∧
     (det.status ≠ "completed" →
       det.analysis_results = none ∧ det.download_url = none ∧
       ReportsRoutes.download_report_endpoint step1Sys.db 1 = none ∧
       ReportCard.downloadDisabled det.status det.download_url = true) ∧
     (∀ uid skip limit, ∀ e ∈ ReportService.get_reports step1Sys.db uid skip limit,
       e.analysis_results = none)) :=
  claim_C6_results_only_when_completed step1Sys reach_step1 1
    (ReportService.serializeReport true
      (ReportService.create_report PipelineSystem.initSys.db rin0 5).1) rfl
